import Mathlib

/-!
Shallow embedding of the core of the `waves-xyl` particle-visualizer
repository, together with theorems settling the frozen claims about it.

The embedded code comes from:
* `src/services/audioService.ts` — `AudioService.getFrequencyData` and
  `generateShapePositions` (the per-shape target-position generator);
* `src/components/ParticleSystem.tsx` — the per-frame morph step and the
  bass "pop" pipeline (noise gate, cube, 0.3-lerp) in `useFrame`;
* `src/components/VisionController.tsx` — `onResults`, the hand-landmark
  to gesture-factor mapping.

JavaScript numbers are idealized as exact arithmetic: ℚ where the code
only uses field operations (the audio band averages and the pop
pipeline), ℝ where it uses transcendental functions (the shape
generators, the gesture distances).  `Math.random()` draws are modelled
as explicit streams of values in `[0,1)` passed in as parameters, one
stream entry per `Math.random()` call in source order.
-/

namespace Waves

/-! ## Audio bands (`AudioService.getFrequencyData`, src/services/audioService.ts lines 63–87) -/

/-- The `{bass, mid, treble}` record returned by `getFrequencyData`. -/
structure AudioBands where
  bass : ℚ
  mid : ℚ
  treble : ℚ
  deriving DecidableEq, Repr

/-- The band-averaging loop of `getFrequencyData`: for buffer length `L`
and byte data `data`, `bassRange = ⌊L·0.1⌋`, `midRange = ⌊L·0.5⌋`; each
index `i < L` contributes `data[i]/255` to `bass` if `i < bassRange`,
else to `mid` if `i < midRange`, else to `treble`; each accumulator is
then divided by its band width (ℚ division by zero yields 0 where the
JS code would produce `NaN`). -/
def bandAverages (L : ℕ) (data : ℕ → ℕ) : AudioBands :=
  let bassRange := L / 10
  let midRange := L / 2
  let bass := ∑ i ∈ Finset.range L, if i < bassRange then (data i : ℚ) / 255 else 0
  let mid := ∑ i ∈ Finset.range L,
    if ¬ i < bassRange ∧ i < midRange then (data i : ℚ) / 255 else 0
  let treble := ∑ i ∈ Finset.range L,
    if ¬ i < bassRange ∧ ¬ i < midRange then (data i : ℚ) / 255 else 0
  ⟨bass / bassRange, mid / (midRange - bassRange), treble / (L - midRange)⟩

/-- `AudioService.getFrequencyData`: returns `{bass: 0, mid: 0, treble: 0}`
when the analyser or the data buffer is absent (`!this.analyser ||
!this.dataArray`), otherwise the band averages over the analyser's
`frequencyBinCount`-length byte buffer. -/
def getFrequencyData (analyser : Option ℕ) (dataArray : Option (ℕ → ℕ)) : AudioBands :=
  match analyser, dataArray with
  | some L, some data => bandAverages L data
  | _, _ => ⟨0, 0, 0⟩

/-! ## The bass "pop" pipeline (src/components/ParticleSystem.tsx lines 204–213) -/

/-- Noise gate: `if (rawBass < 0.2) rawBass = 0`. -/
def gateBass (b : ℚ) : ℚ := if b < 1/5 then 0 else b

/-- Gated bass cubed: `Math.pow(rawBass, 3.0)`. -/
def popBass (b : ℚ) : ℚ := (gateBass b) ^ 3

/-- One smoothing tick: `smoothedBassRef.current += (popBass - smoothedBassRef.current) * 0.3`. -/
def smoothStep (s p : ℚ) : ℚ := s + (p - s) * (3/10)

/-- The smoothed level after `k` frames of constant bass input `b`,
starting from `smoothedBassRef.current = 0`. -/
def smoothedIter (b : ℚ) : ℕ → ℚ
  | 0 => 0
  | k + 1 => smoothStep (smoothedIter b k) (popBass b)

/-! ### Helper lemmas for the band averages -/

lemma popBass_nine_tenths : popBass (9/10) = 729/1000 := by
  norm_num [popBass, gateBass]

lemma filter_bass (L b : ℕ) (hb : b ≤ L) :
    (Finset.range L).filter (fun i => i < b) = Finset.range b := by
  ext i
  simp only [Finset.mem_filter, Finset.mem_range]
  omega

lemma filter_mid (L b1 b2 : ℕ) (hb : b2 ≤ L) :
    (Finset.range L).filter (fun i => ¬ i < b1 ∧ i < b2) = Finset.Ico b1 b2 := by
  ext i
  simp only [Finset.mem_filter, Finset.mem_range, Finset.mem_Ico, not_lt]
  omega

lemma filter_treble (L b1 b2 : ℕ) (hb : b1 ≤ b2) :
    (Finset.range L).filter (fun i => ¬ i < b1 ∧ ¬ i < b2) = Finset.Ico b2 L := by
  ext i
  simp only [Finset.mem_filter, Finset.mem_range, Finset.mem_Ico, not_lt]
  omega

lemma sum_ite_const (L b : ℕ) (hb : b ≤ L) (c : ℚ) :
    (∑ i ∈ Finset.range L, if i < b then c else 0) = b * c := by
  rw [← Finset.sum_filter, filter_bass L b hb, Finset.sum_const, Finset.card_range,
    nsmul_eq_mul]

lemma sum_ite_const_mid (L b1 b2 : ℕ) (hb : b2 ≤ L) (c : ℚ) :
    (∑ i ∈ Finset.range L, if ¬ i < b1 ∧ i < b2 then c else 0) = (b2 - b1 : ℕ) * c := by
  rw [← Finset.sum_filter, filter_mid L b1 b2 hb, Finset.sum_const, Nat.card_Ico,
    nsmul_eq_mul]

lemma sum_ite_const_treble (L b1 b2 : ℕ) (hb : b1 ≤ b2) (c : ℚ) :
    (∑ i ∈ Finset.range L, if ¬ i < b1 ∧ ¬ i < b2 then c else 0) = (L - b2 : ℕ) * c := by
  rw [← Finset.sum_filter, filter_treble L b1 b2 hb, Finset.sum_const, Nat.card_Ico,
    nsmul_eq_mul]

lemma sum_band_congr (L : ℕ) (m : ℕ) (data : ℕ → ℕ) (p : ℕ → Prop) [DecidablePred p]
    (hdata : ∀ i, i < L → data i = m) :
    (∑ i ∈ Finset.range L, if p i then (data i : ℚ) / 255 else 0)
      = ∑ i ∈ Finset.range L, if p i then (m : ℚ) / 255 else 0 := by
  apply Finset.sum_congr rfl
  intro i hi
  rw [Finset.mem_range] at hi
  rw [hdata i hi]

lemma bandAverages_flat (L : ℕ) (m : ℕ) (data : ℕ → ℕ) (hL : 10 ≤ L)
    (hdata : ∀ i, i < L → data i = m) :
    bandAverages L data = ⟨(m : ℚ) / 255, (m : ℚ) / 255, (m : ℚ) / 255⟩ := by
  have hb1 : 1 ≤ L / 10 := by omega
  have hb12 : L / 10 < L / 2 := by omega
  have hb2L : L / 2 < L := by omega
  simp only [bandAverages]
  rw [AudioBands.mk.injEq]
  refine ⟨?_, ?_, ?_⟩
  · have hne : ((L / 10 : ℕ) : ℚ) ≠ 0 := Nat.cast_ne_zero.mpr (by omega)
    rw [sum_band_congr L m data (fun i => i < L / 10) hdata,
      sum_ite_const L (L / 10) (by omega) ((m : ℚ) / 255)]
    exact mul_div_cancel_left₀ _ hne
  · have hne : ((L / 2 : ℕ) : ℚ) - ((L / 10 : ℕ) : ℚ) ≠ 0 :=
      ne_of_gt (sub_pos.mpr (by exact_mod_cast hb12))
    rw [sum_band_congr L m data (fun i => ¬ i < L / 10 ∧ i < L / 2) hdata,
      sum_ite_const_mid L (L / 10) (L / 2) (by omega) ((m : ℚ) / 255),
      Nat.cast_sub (le_of_lt hb12)]
    exact mul_div_cancel_left₀ _ hne
  · have hne : ((L : ℚ)) - ((L / 2 : ℕ) : ℚ) ≠ 0 :=
      ne_of_gt (sub_pos.mpr (by exact_mod_cast hb2L))
    rw [sum_band_congr L m data (fun i => ¬ i < L / 10 ∧ ¬ i < L / 2) hdata,
      sum_ite_const_treble L (L / 10) (L / 2) (by omega) ((m : ℚ) / 255),
      Nat.cast_sub (le_of_lt hb2L)]
    exact mul_div_cancel_left₀ _ hne

lemma smoothedIter_closed_form (k : ℕ) :
    smoothedIter (9/10) k = (729/1000) * (1 - (7/10) ^ k) := by
  induction k with
  | zero => simp [smoothedIter]
  | succ n ih =>
    rw [smoothedIter, smoothStep, ih, popBass_nine_tenths, pow_succ]
    ring

/-! ## Claim theorems: audio analysis -/

/-- C2 (counterexample): feeding constant bass `0.9` through the pop
pipeline for one frame starting from `smoothed = 0` does NOT give the
claimed `0.9·(1 − 0.7^1)`: the code cubes the gated bass first, so one
frame yields `0.3·0.9³ = 0.2187`, not `0.27`. -/
theorem c2_counterexample : smoothedIter (9/10) 1 ≠ (9/10) * (1 - (7/10) ^ 1) := by
  norm_num [smoothedIter, smoothStep, popBass, gateBass]

/-- C2 (amended): with constant bass `0.9` from `smoothed = 0`, the
smoothed value after frame `k` equals `0.729·(1 − 0.7^k)` — the gated
bass is cubed (`0.9³ = 0.729`) before the `0.3` lerp, so the geometric
convergence is toward `0.729`, reaching `≈ 0.708` (not `0.875`) after
10 frames. -/
theorem c2_smoothed_geometric (k : ℕ) :
    smoothedIter (9/10) k = (729/1000) * (1 - (7/10) ^ k) :=
  smoothedIter_closed_form k

/-- C3: the per-frame pop derivation gates bass below `0.2` to `0`,
cubes the gated value otherwise, and one smoothing tick from
`smoothed = 0` yields `0.3·pop`; in particular bass `0.15` yields
pop `0` and bass `1.0` yields pop `1.0` pre-smoothing. -/
theorem c3_pop_derivation :
    popBass (3/20) = 0 ∧ popBass 1 = 1 ∧ (∀ p, smoothStep 0 p = (3/10) * p) ∧
      (∀ b, b < 1/5 → popBass b = 0) ∧ (∀ b, ¬ b < 1/5 → popBass b = b ^ 3) := by
  refine ⟨by norm_num [popBass, gateBass], by norm_num [popBass, gateBass], ?_, ?_, ?_⟩
  · intro p
    rw [smoothStep]
    ring
  · intro b hb
    rw [popBass, gateBass, if_pos hb]
    norm_num
  · intro b hb
    rw [popBass, gateBass, if_neg hb]

/-- C3 (witness): the pop pipeline evaluated at the concrete inputs of
the claim. -/
theorem c3_witness :
    popBass (3/20) = 0 ∧ popBass 1 = 1 ∧ smoothStep 0 (1/2) = (3/10) * (1/2) ∧
      popBass (1/10) = 0 ∧ popBass (1/2) = (1/2) ^ 3 := by
  obtain ⟨h1, h2, h3, h4, h5⟩ := c3_pop_derivation
  exact ⟨h1, h2, h3 (1/2), h4 (1/10) (by norm_num), h5 (1/2) (by norm_num)⟩

/-- C4 (counterexample): for buffer length `L = 5` the bass band
`[0, ⌊0.1·5⌋) = [0, 0)` is empty, so a flat buffer of `255`s does not
produce `bass = 255/255 = 1` (the JS code divides `0` by `0`, yielding
`NaN`; the ℚ embedding yields `0`). -/
theorem c4_counterexample : (bandAverages 5 (fun _ => 255)).bass ≠ 255 / 255 := by
  norm_num [bandAverages, Finset.sum_range_succ]

/-- C4 (amended): for every buffer length `L ≥ 10` (so that all three
index bands are nonempty — in the repository `L` is always 256) and
every buffer whose entries all equal the byte `m`, the band computation
returns `bass = mid = treble = m/255` exactly. -/
theorem c4_flat_buffer_bands (L m : ℕ) (data : ℕ → ℕ) (hL : 10 ≤ L)
    (hdata : ∀ i, i < L → data i = m) :
    bandAverages L data = ⟨(m : ℚ) / 255, (m : ℚ) / 255, (m : ℚ) / 255⟩ :=
  bandAverages_flat L m data hL hdata

/-- C4 (witness): a flat buffer of `7`s of length `10` averages to
`7/255` in all three bands. -/
theorem c4_witness :
    10 ≤ 10 ∧ bandAverages 10 (fun _ => 7) = ⟨(7 : ℚ) / 255, (7 : ℚ) / 255, (7 : ℚ) / 255⟩ :=
  ⟨le_refl 10, c4_flat_buffer_bands 10 7 (fun _ => 7) (le_refl 10) (fun _ _ => rfl)⟩

/-- C10: `getFrequencyData` called while the analyser or the data
buffer is absent (no successful `init` yet) returns exactly
`{bass: 0, mid: 0, treble: 0}` instead of raising. -/
theorem c10_uninitialized_returns_zero (analyser : Option ℕ) (dataArray : Option (ℕ → ℕ))
    (h : analyser = none ∨ dataArray = none) :
    getFrequencyData analyser dataArray = ⟨0, 0, 0⟩ := by
  rcases h with h | h
  · subst h
    rfl
  · subst h
    cases analyser <;> rfl

/-- C10 (witness): the freshly-constructed service state (`analyser`
and `dataArray` both `null`) yields all-zero bands. -/
theorem c10_witness :
    ((none : Option ℕ) = none ∨ (none : Option (ℕ → ℕ)) = none) ∧
      getFrequencyData none none = ⟨0, 0, 0⟩ :=
  ⟨Or.inl rfl, c10_uninitialized_returns_zero none none (Or.inl rfl)⟩

/-! ## Gesture mapping (`onResults`, src/components/VisionController.tsx lines 69–110) -/

/-- A MediaPipe hand landmark; `onResults` reads only `x` and `y`. -/
structure Landmark where
  x : ℝ
  y : ℝ

/-- Euclidean distance between two landmarks as computed in `onResults`:
`Math.sqrt(dx * dx + dy * dy)`. -/
noncomputable def landmarkDist (a b : Landmark) : ℝ :=
  Real.sqrt ((a.x - b.x) * (a.x - b.x) + (a.y - b.y) * (a.y - b.y))

/-- The final clamp of `onResults`:
`if (factor > 1.0) factor = 1.0; if (factor < 0.0) factor = 0.0;`. -/
noncomputable def clampFactor (f : ℝ) : ℝ :=
  let f1 := if f > 1 then 1 else f
  if f1 < 0 then 0 else f1

/-- The hand-detected branch of `onResults`: pinch distance (thumb tip to
index tip) divided by `palmSize || 0.1` — the JS `||` falls back to `0.1`
exactly when `palmSize` is `0` — then remapped by `(rawFactor - 0.2) / 1.0`
and clamped to `[0, 1]`. -/
noncomputable def handFactor (thumbTip indexTip wrist indexBase : Landmark) : ℝ :=
  let dist := landmarkDist thumbTip indexTip
  let palmSize := landmarkDist wrist indexBase
  let rawFactor := dist / (if palmSize = 0 then 0.1 else palmSize)
  let factor := (rawFactor - 0.2) / 1.0
  clampFactor factor

/-- `onResults` as a whole: a detected hand yields `handFactor` of its
landmarks 4, 8, 0, 5; no detected hand yields `onHandUpdate(1.0)`. -/
noncomputable def onResultsFactor :
    Option (Landmark × Landmark × Landmark × Landmark) → ℝ
  | some (t, i, w, b) => handFactor t i w b
  | none => 1

/-- Modelled from the spec for comparison with `handFactor` (refinement
check for C6): the same computation but with the palm distance floored at
`0.1` ("floor 0.1 to avoid division blowup"), i.e. divisor
`max palmSize 0.1`, as the claim reads the code. -/
noncomputable def handFactorSpec (thumbTip indexTip wrist indexBase : Landmark) : ℝ :=
  let dist := landmarkDist thumbTip indexTip
  let palmSize := landmarkDist wrist indexBase
  let rawFactor := dist / max palmSize 0.1
  let factor := (rawFactor - 0.2) / 1.0
  clampFactor factor

lemma clampFactor_mem (f : ℝ) : 0 ≤ clampFactor f ∧ clampFactor f ≤ 1 := by
  simp only [clampFactor]
  split_ifs with h1 h2 h3 <;> exact ⟨by linarith, by linarith⟩

lemma clampFactor_of_mem (f : ℝ) (h0 : ¬ f > 1) (h1 : ¬ f < 0) : clampFactor f = f := by
  simp only [clampFactor, if_neg h0, if_neg h1]

lemma landmarkDist_self (a : Landmark) : landmarkDist a a = 0 := by
  simp [landmarkDist]

lemma landmarkDist_unit : landmarkDist ⟨0, 0⟩ ⟨1, 0⟩ = 1 := by
  rw [landmarkDist]
  norm_num

lemma landmarkDist_horizontal (a : ℝ) (h : 0 ≤ a) : landmarkDist ⟨0, 0⟩ ⟨a, 0⟩ = a := by
  rw [landmarkDist, show ((0:ℝ) - a) * (0 - a) + (0 - 0) * (0 - 0) = a ^ 2 by ring,
    Real.sqrt_sq h]

/-! ## Claim theorems: gesture mapping -/

/-- C6 (counterexample): at a palm distance of `0.05` (strictly between
`0` and `0.1`) the code divides by the palm distance itself, not by the
claimed floor `0.1`: JS `palmSize || 0.1` only replaces an exact `0`.
With pinch distance `0.025` the code outputs `0.3` while the claimed
floored computation outputs `0.05`. -/
theorem c6_counterexample :
    handFactor ⟨0, 0⟩ ⟨1/40, 0⟩ ⟨0, 0⟩ ⟨1/20, 0⟩ ≠
      handFactorSpec ⟨0, 0⟩ ⟨1/40, 0⟩ ⟨0, 0⟩ ⟨1/20, 0⟩ := by
  have hd : landmarkDist ⟨0, 0⟩ ⟨1/40, 0⟩ = 1/40 := landmarkDist_horizontal _ (by norm_num)
  have hp : landmarkDist ⟨0, 0⟩ ⟨1/20, 0⟩ = 1/20 := landmarkDist_horizontal _ (by norm_num)
  have h1 : handFactor ⟨0, 0⟩ ⟨1/40, 0⟩ ⟨0, 0⟩ ⟨1/20, 0⟩ = 3/10 := by
    simp only [handFactor, hd, hp]
    rw [if_neg (by norm_num), clampFactor_of_mem _ (by norm_num) (by norm_num)]
    norm_num
  have h2 : handFactorSpec ⟨0, 0⟩ ⟨1/40, 0⟩ ⟨0, 0⟩ ⟨1/20, 0⟩ = 1/20 := by
    simp only [handFactorSpec, hd, hp]
    rw [max_eq_right (by norm_num), clampFactor_of_mem _ (by norm_num) (by norm_num)]
    norm_num
  rw [h1, h2]
  norm_num

/-- C6 (amended): the gesture factor divides the pinch distance by the
palm-reference distance itself whenever that distance is nonzero — the
`0.1` fallback divisor applies only when the palm distance is exactly
`0`, not as a floor for `0 < p < 0.1` — and the quotient is then
remapped by `(raw − 0.2)/1.0` and clamped to `[0, 1]`. -/
theorem c6_palm_divisor (t i w b : Landmark) :
    (landmarkDist w b ≠ 0 →
      handFactor t i w b =
        clampFactor ((landmarkDist t i / landmarkDist w b - 0.2) / 1.0)) ∧
    (landmarkDist w b = 0 →
      handFactor t i w b = clampFactor ((landmarkDist t i / 0.1 - 0.2) / 1.0)) := by
  constructor
  · intro h
    simp only [handFactor, if_neg h]
  · intro h
    simp only [handFactor, h, eq_self_iff_true, if_true]

/-- C6 (witness): the amended claim at the concrete landmarks of the
counterexample, whose palm distance `0.05` is nonzero. -/
theorem c6_witness :
    landmarkDist ⟨0, 0⟩ ⟨1/20, 0⟩ ≠ 0 ∧
      handFactor ⟨0, 0⟩ ⟨1/40, 0⟩ ⟨0, 0⟩ ⟨1/20, 0⟩ =
        clampFactor ((landmarkDist ⟨0, 0⟩ ⟨1/40, 0⟩ / landmarkDist ⟨0, 0⟩ ⟨1/20, 0⟩
          - 0.2) / 1.0) := by
  have hp : landmarkDist ⟨0, 0⟩ ⟨1/20, 0⟩ ≠ 0 := by
    rw [landmarkDist_horizontal _ (by norm_num)]
    norm_num
  exact ⟨hp, (c6_palm_divisor ⟨0, 0⟩ ⟨1/40, 0⟩ ⟨0, 0⟩ ⟨1/20, 0⟩).1 hp⟩

/-- C7: the gesture output is always in `[0, 1]`; with no detected hand
it is exactly `1.0`; and a detected hand with pinch distance `0` and
nonzero palm reference clamps to exactly `0.0`. -/
theorem c7_output_range :
    (∀ o, 0 ≤ onResultsFactor o ∧ onResultsFactor o ≤ 1) ∧
    onResultsFactor none = 1 ∧
    (∀ t i w b, landmarkDist t i = 0 → landmarkDist w b ≠ 0 →
      handFactor t i w b = 0) := by
  refine ⟨?_, rfl, ?_⟩
  · intro o
    match o with
    | none => exact ⟨by norm_num [onResultsFactor], by norm_num [onResultsFactor]⟩
    | some (t, i, w, b) =>
      show 0 ≤ handFactor t i w b ∧ handFactor t i w b ≤ 1
      simp only [handFactor]
      exact clampFactor_mem _
  · intro t i w b hti hwb
    simp only [handFactor, hti, if_neg hwb, zero_div]
    norm_num [clampFactor]

/-- C7 (witness): coincident thumb and index tips with a unit palm
reference yield factor `0`; the no-hand output is `1`. -/
theorem c7_witness :
    (0 ≤ onResultsFactor none ∧ onResultsFactor none ≤ 1) ∧
      onResultsFactor none = 1 ∧
      landmarkDist ⟨0, 0⟩ ⟨0, 0⟩ = 0 ∧
      handFactor ⟨0, 0⟩ ⟨0, 0⟩ ⟨0, 0⟩ ⟨1, 0⟩ = 0 := by
  have hwb : landmarkDist ⟨0, 0⟩ ⟨1, 0⟩ ≠ 0 := by
    rw [landmarkDist_unit]
    norm_num
  exact ⟨c7_output_range.1 none, c7_output_range.2.1, landmarkDist_self _,
    c7_output_range.2.2 ⟨0, 0⟩ ⟨0, 0⟩ ⟨0, 0⟩ ⟨1, 0⟩ (landmarkDist_self _) hwb⟩

/-! ## Morph engine (src/components/ParticleSystem.tsx lines 185–200) -/

/-- Per-frame morph speed: `0.03 + audioData.treble * 0.05`. -/
noncomputable def morphSpeed (treble : ℝ) : ℝ := 0.03 + treble * 0.05

/-- One interpolation step on one axis:
`positions[ix] += (tx - positions[ix]) * morphSpeed`. -/
def morphStep (s current target : ℝ) : ℝ := current + (target - current) * s

/-- The axis value after `k` morph frames at fixed speed `s` starting
from `c`, with target `t`. -/
def morphIter (s c t : ℝ) : ℕ → ℝ
  | 0 => c
  | k + 1 => morphStep s (morphIter s c t k) t

lemma morphIter_gap (s c t : ℝ) (k : ℕ) :
    t - morphIter s c t k = (1 - s) ^ k * (t - c) := by
  induction k with
  | zero => simp [morphIter]
  | succ n ih =>
    rw [morphIter, morphStep, pow_succ,
      show t - (morphIter s c t n + (t - morphIter s c t n) * s)
        = (t - morphIter s c t n) * (1 - s) by ring, ih]
    ring

lemma morphSpeed_pos (treble : ℝ) (h0 : 0 ≤ treble) : 0 < morphSpeed treble := by
  rw [morphSpeed]
  nlinarith

lemma morphSpeed_lt_one (treble : ℝ) (h1 : treble ≤ 1) : morphSpeed treble < 1 := by
  rw [morphSpeed]
  nlinarith

lemma morphIter_abs_gap (s c t : ℝ) (hs1 : s < 1) (k : ℕ) :
    |t - morphIter s c t k| = (1 - s) ^ k * |t - c| := by
  rw [morphIter_gap, abs_mul, abs_pow, abs_of_nonneg (by linarith : (0:ℝ) ≤ 1 - s)]

/-! ## Claim theorem: morph convergence -/

/-- C5: with `morphSpeed = 0.03 + treble·0.05` for `treble ∈ [0,1]` the
speed lies in `(0,1)`; per axis, the gap to the target after `k` steps is
exactly `(1−s)^k` times the initial gap, so `|current − target|`
decreases monotonically, tends to `0`, and the sign of
`target − current` never flips (no overshoot). -/
theorem c5_morph_convergence (treble c t : ℝ) (h0 : 0 ≤ treble) (h1 : treble ≤ 1) :
    (0 < morphSpeed treble ∧ morphSpeed treble < 1) ∧
    (∀ k, |t - morphIter (morphSpeed treble) c t k| =
      (1 - morphSpeed treble) ^ k * |t - c|) ∧
    (∀ k, |t - morphIter (morphSpeed treble) c t (k + 1)| ≤
      |t - morphIter (morphSpeed treble) c t k|) ∧
    (∀ k, 0 ≤ (t - morphIter (morphSpeed treble) c t k) * (t - c)) ∧
    Filter.Tendsto (fun k => |t - morphIter (morphSpeed treble) c t k|)
      Filter.atTop (nhds 0) := by
  have hs0 := morphSpeed_pos treble h0
  have hs1 := morphSpeed_lt_one treble h1
  have habs := morphIter_abs_gap (morphSpeed treble) c t hs1
  refine ⟨⟨hs0, hs1⟩, habs, ?_, ?_, ?_⟩
  · intro k
    rw [habs k, habs (k + 1), pow_succ]
    have hprod : 0 ≤ (1 - morphSpeed treble) ^ k * |t - c| * morphSpeed treble :=
      mul_nonneg (mul_nonneg
        (pow_nonneg (by linarith : (0:ℝ) ≤ 1 - morphSpeed treble) k)
        (abs_nonneg (t - c))) hs0.le
    nlinarith [hprod]
  · intro k
    rw [morphIter_gap]
    nlinarith [pow_nonneg (by linarith : (0:ℝ) ≤ 1 - morphSpeed treble) k,
      sq_nonneg (t - c)]
  · have hlim : Filter.Tendsto
        (fun k : ℕ => (1 - morphSpeed treble) ^ k * |t - c|) Filter.atTop (nhds 0) := by
      have := (tendsto_pow_atTop_nhds_zero_of_lt_one
        (by linarith : (0:ℝ) ≤ 1 - morphSpeed treble)
        (by linarith : 1 - morphSpeed treble < 1)).mul_const |t - c|
      rwa [zero_mul] at this
    exact hlim.congr (fun k => (habs k).symm)

/-- C5 (witness): morph convergence at `treble = 1/2`, from `0` toward
target `1`. -/
theorem c5_witness :
    ((0:ℝ) ≤ 1/2 ∧ (1/2:ℝ) ≤ 1) ∧
    ((0 < morphSpeed (1/2) ∧ morphSpeed (1/2) < 1) ∧
    (∀ k, |1 - morphIter (morphSpeed (1/2)) 0 1 k| =
      (1 - morphSpeed (1/2)) ^ k * |1 - 0|) ∧
    (∀ k, |1 - morphIter (morphSpeed (1/2)) 0 1 (k + 1)| ≤
      |1 - morphIter (morphSpeed (1/2)) 0 1 k|) ∧
    (∀ k, 0 ≤ (1 - morphIter (morphSpeed (1/2)) 0 1 k) * (1 - 0)) ∧
    Filter.Tendsto (fun k => |1 - morphIter (morphSpeed (1/2)) 0 1 k|)
      Filter.atTop (nhds 0)) :=
  ⟨⟨by norm_num, by norm_num⟩,
    c5_morph_convergence (1/2) 0 1 (by norm_num) (by norm_num)⟩

/-! ## Shape generator (`generateShapePositions`, src/services/audioService.ts lines 100–369)

`Math.random()` is modelled as an explicit stream `rand : ℕ → ℝ` of
values in `[0,1)` per particle, indexed in source call order: draws
0–2 are consumed by the dead fallback initializers
`let x/y/z = (Math.random() - 0.5) * 2 * radius` that run before the
`switch` for every particle, so each shape's own draws start at index 3. -/

/-- A three.js `Vector3`. -/
structure Vec3 where
  x : ℝ
  y : ℝ
  z : ℝ

/-- Squared Euclidean magnitude of a `Vector3`. -/
def Vec3.mag2 (v : Vec3) : ℝ := v.x ^ 2 + v.y ^ 2 + v.z ^ 2

/-- `Vector3.length()`. -/
noncomputable def Vec3.mag (v : Vec3) : ℝ := Real.sqrt v.mag2

/-- `Vector3.multiplyScalar(s)`. -/
def Vec3.smul (v : Vec3) (s : ℝ) : Vec3 := ⟨v.x * s, v.y * s, v.z * s⟩

/-- `Vector3.add(w)`. -/
def Vec3.add (v w : Vec3) : Vec3 := ⟨v.x + w.x, v.y + w.y, v.z + w.z⟩

/-- `Vector3.sub(w)`. -/
def Vec3.sub (v w : Vec3) : Vec3 := ⟨v.x - w.x, v.y - w.y, v.z - w.z⟩

/-- `Vector3.normalize()` = `divideScalar(this.length() || 1)`
(three.js leaves the zero vector unchanged). -/
noncomputable def Vec3.normalize (v : Vec3) : Vec3 :=
  v.smul (1 / (if v.mag = 0 then 1 else v.mag))

/-- three.js `Vector3.setFromSphericalCoords(radius, phi, theta)`:
`x = sin(phi)·radius·sin(theta)`, `y = cos(phi)·radius`,
`z = sin(phi)·radius·cos(theta)`. -/
noncomputable def setFromSphericalCoords (r phi theta : ℝ) : Vec3 :=
  ⟨Real.sin phi * r * Real.sin theta, Real.cos phi * r, Real.sin phi * r * Real.cos theta⟩

/-- three.js `Vector3.applyAxisAngle(new Vector3(1,0,0), a)`: rotation
about the X axis by angle `a`. -/
noncomputable def applyAxisAngleX (a : ℝ) (v : Vec3) : Vec3 :=
  ⟨v.x, v.y * Real.cos a - v.z * Real.sin a, v.y * Real.sin a + v.z * Real.cos a⟩

/-- The 13-member `ShapeType` enumeration from `src/types`. -/
inductive ShapeType where
  | NEBULA | HEART | FLOWER | SATURN | CAKE | FIREWORKS | SPIRAL
  | LEMNISCATE | KOCH | ASTROID | BUTTERFLY | CATENOID | ROSE
  deriving DecidableEq, Repr

/-- The four tetrahedron attractor vertices `v[0..3]` of
`getTetrahedronPoint`, totalized over ℕ (the chaos-game index
`Math.floor(Math.random() * 4)` is always in `0..3` for draws in
`[0,1)`). -/
def tetraVertex (k : ℕ) : Vec3 :=
  if k = 0 then ⟨1, 1, 1⟩
  else if k = 1 then ⟨-1, -1, 1⟩
  else if k = 2 then ⟨-1, 1, -1⟩
  else ⟨1, -1, -1⟩

/-- The chaos-game iteration of `getTetrahedronPoint`: the start point is
a random direction normalized and scaled to `radius` (draws 3–5), and
each step does `current.sub(target).multiplyScalar(0.5).add(target)`
toward the vertex indexed by `Math.floor(Math.random() * 4)`
(draws 6, 7, …). -/
noncomputable def kochChaos (radius : ℝ) (rand : ℕ → ℝ) : ℕ → Vec3
  | 0 => ((⟨rand 3 - 0.5, rand 4 - 0.5, rand 5 - 0.5⟩ : Vec3).normalize).smul radius
  | n + 1 =>
    let target := tetraVertex (Int.toNat ⌊rand (6 + n) * 4⌋)
    (((kochChaos radius rand n).sub target).smul 0.5).add target

/-- `getTetrahedronPoint(depth)`: the chaos-game point after `depth`
steps, finally scaled by `radius * 0.8`. -/
noncomputable def getTetrahedronPoint (radius : ℝ) (rand : ℕ → ℝ) (depth : ℕ) : Vec3 :=
  (kochChaos radius rand depth).smul (radius * 0.8)

/-- The position written for particle `i` of `count` by one iteration of
the `generateShapePositions` loop, for shape `type` and scale `radius`,
given the particle's stream of `Math.random()` draws.  Each `switch`
case fully overwrites `tempVec`, so the iterations are independent; the
`default` branch of the `switch` is unreachable for the 13 enum members
and is not part of the inductive. -/
noncomputable def genPos (type : ShapeType) (i count : ℕ) (radius : ℝ)
    (rand : ℕ → ℝ) : Vec3 :=
  let t : ℝ := (i : ℝ) / count
  match type with
  | ShapeType.NEBULA =>
    let r := rand 3 * radius
    let theta := rand 4 * Real.pi * 2
    let phi := Real.arccos (2 * rand 5 - 1)
    let v := setFromSphericalCoords r phi theta
    let armOffset := Real.sin (r * 0.5)
    ⟨v.x * Real.cos armOffset - v.z * Real.sin armOffset, v.y * 0.3,
      v.x * Real.sin armOffset + v.z * Real.cos armOffset⟩
  | ShapeType.HEART =>
    let phi := rand 3 * Real.pi * 2
    let u := phi
    let hx := 16 * (Real.sin u) ^ 3
    let hy := 13 * Real.cos u - 5 * Real.cos (2 * u) - 2 * Real.cos (3 * u)
      - Real.cos (4 * u)
    let hz := (rand 5 - 0.5) * 6 * Real.sin u
    (⟨hx, hy, hz⟩ : Vec3).smul 0.4
  | ShapeType.FLOWER =>
    let u := t * Real.pi * 2 * 10
    let r := Real.cos (5 * u) * radius
    let yVal := (|r| / radius) ^ 2 * 5 - 2
    ⟨r * Real.cos u, yVal + (rand 3 - 0.5), r * Real.sin u⟩
  | ShapeType.SATURN =>
    if (i : ℝ) < count * 0.4 then
      let r := radius * 0.6
      let theta := rand 3 * Real.pi * 2
      let phi := Real.arccos (2 * rand 4 - 1)
      setFromSphericalCoords r phi theta
    else
      let angle := rand 3 * Real.pi * 2
      let dist := radius * (1.2 + rand 4 * 0.8)
      let tilt := Real.pi / 6
      applyAxisAngleX tilt
        ⟨dist * Real.cos angle, (rand 5 - 0.5) * 0.5, dist * Real.sin angle⟩
  | ShapeType.CAKE =>
    let bottomTierR := radius
    let topTierR := radius * 0.65
    let bottomH := radius * 0.5
    let topH := radius * 0.4
    let v : Vec3 :=
      if (count : ℝ) * 0.98 < i then
        let cIdx := Int.toNat ⌊rand 4 * 6⌋
        let angle := ((cIdx : ℝ) / 6) * Real.pi * 2
        let cr := topTierR * 0.6
        let cy := bottomH + topH + radius * 0.15 + rand 5 * 0.2
        let w : Vec3 := ⟨cr * Real.cos angle, cy, cr * Real.sin angle⟩
        ⟨w.x + (rand 6 - 0.5) * 0.1, w.y, w.z + (rand 7 - 0.5) * 0.1⟩
      else if (count : ℝ) * 0.95 < i then
        let cIdx := Int.toNat ⌊rand 4 * 6⌋
        let angle := ((cIdx : ℝ) / 6) * Real.pi * 2
        let cr := topTierR * 0.6
        let ch := rand 5 * radius * 0.15
        ⟨cr * Real.cos angle, bottomH + topH + ch, cr * Real.sin angle⟩
      else if (count : ℝ) * 0.90 < i then
        let angle := rand 4 * Real.pi * 2
        let rBase := if 0.5 < rand 5 then topTierR else bottomTierR
        let yBase := if 0.5 < rand 5 then bottomH + topH else bottomH
        let rOffset := 0.5 * Real.sin (angle * 20)
        ⟨(rBase + rOffset * 0.2) * Real.cos angle, yBase,
          (rBase + rOffset * 0.2) * Real.sin angle⟩
      else if (count : ℝ) * 0.55 < i then
        let angle := rand 4 * Real.pi * 2
        let r := Real.sqrt (rand 5) * topTierR
        let h := rand 6 * topH
        ⟨r * Real.cos angle, bottomH + h, r * Real.sin angle⟩
      else
        let angle := rand 4 * Real.pi * 2
        let r := Real.sqrt (rand 5) * bottomTierR
        let h := rand 6 * bottomH
        ⟨r * Real.cos angle, h, r * Real.sin angle⟩
    ⟨v.x, v.y - radius * 0.5, v.z⟩
  | ShapeType.FIREWORKS =>
    let theta := rand 3 * Real.pi * 2
    let phi := Real.arccos (2 * rand 4 - 1)
    let r := rand 5 ^ (0.1 : ℝ) * radius * 1.5
    setFromSphericalCoords r phi theta
  | ShapeType.SPIRAL =>
    let loops : ℝ := 4
    let theta := t * Real.pi * 2 * loops
    let r := (theta / (Real.pi * 2 * loops)) * radius * 1.5
    let scatter := (rand 3 - 0.5) * (radius * 0.2)
    ⟨(r + scatter) * Real.cos theta, (rand 4 - 0.5) * radius * 0.1,
      (r + scatter) * Real.sin theta⟩
  | ShapeType.LEMNISCATE =>
    let tVal := t * Real.pi * 2
    let scale := radius * 1.2
    let sinT := Real.sin tVal
    let cosT := Real.cos tVal
    let dv := 1 + sinT * sinT
    let bx := (scale * cosT) / dv
    let bY := (scale * cosT * sinT) / dv
    let thickness := (rand 3 - 0.5) * 2.0
    applyAxisAngleX (Real.pi / 2) ⟨bx, bY, thickness⟩
  | ShapeType.KOCH =>
    getTetrahedronPoint radius rand 6
  | ShapeType.ASTROID =>
    let u := rand 3 * Real.pi * 2
    let v := (rand 4 - 0.5) * Real.pi
    let r := radius * 1.2
    ⟨r * (Real.cos u) ^ 3 * (Real.cos v) ^ 3, r * (Real.sin v) ^ 3,
      r * (Real.sin u) ^ 3 * (Real.cos v) ^ 3⟩
  | ShapeType.BUTTERFLY =>
    let loops : ℝ := 12
    let tVal := t * Real.pi * 2 * loops
    let term := Real.exp (Real.cos tVal) - 2 * Real.cos (4 * tVal)
      - (Real.sin (tVal / 12)) ^ 5
    let r := radius * 0.3 * term
    ⟨r * Real.sin tVal, r * Real.cos tVal, (rand 3 - 0.5) * |r| * 0.5⟩
  | ShapeType.CATENOID =>
    let c := radius * 0.3
    let u := rand 3 * Real.pi * 2
    let v := (t - 0.5) * radius * 1.5
    let r := c * Real.cosh (v / c)
    ⟨r * Real.cos u, v, r * Real.sin u⟩
  | ShapeType.ROSE =>
    let k : ℝ := 6
    let theta := rand 3 * Real.pi * 2
    let phi := rand 4 * Real.pi
    let rBase := Real.sin (k * theta) * Real.sin (k * phi)
    let r := radius * (0.5 + 0.5 * |rBase|)
    setFromSphericalCoords r phi theta

/-- `generateShapePositions(type, count, radius)`: one position per
index `0 ≤ i < count` (the TS default for `radius` is `10`, and both
call sites in `ParticleSystem.tsx` use that default). -/
noncomputable def generateShapePositions (type : ShapeType) (count : ℕ) (radius : ℝ)
    (rand : ℕ → ℕ → ℝ) : List Vec3 :=
  (List.range count).map (fun i => genPos type i count radius (rand i))

/-! ### Magnitude lemmas for the shape generator -/

lemma Vec3.mag2_nonneg (v : Vec3) : 0 ≤ v.mag2 := by
  rw [Vec3.mag2]
  positivity

lemma Vec3.mag_le (v : Vec3) (B : ℝ) (hB : 0 ≤ B) (h : v.mag2 ≤ B ^ 2) : v.mag ≤ B := by
  rw [Vec3.mag]
  exact (Real.sqrt_le_left hB).mpr h

lemma mag2_setFromSphericalCoords (r phi theta : ℝ) :
    (setFromSphericalCoords r phi theta).mag2 = r ^ 2 := by
  simp only [setFromSphericalCoords, Vec3.mag2]
  have ht := Real.sin_sq_add_cos_sq theta
  have hp := Real.sin_sq_add_cos_sq phi
  linear_combination (r ^ 2 * Real.sin phi ^ 2) * ht + r ^ 2 * hp

lemma mag2_applyAxisAngleX (a : ℝ) (v : Vec3) :
    (applyAxisAngleX a v).mag2 = v.mag2 := by
  simp only [applyAxisAngleX, Vec3.mag2]
  have h := Real.sin_sq_add_cos_sq a
  linear_combination (v.y ^ 2 + v.z ^ 2) * h

lemma mag2_smul (v : Vec3) (s : ℝ) : (v.smul s).mag2 = v.mag2 * s ^ 2 := by
  simp only [Vec3.smul, Vec3.mag2]
  ring

lemma rotY_squash (X Y Z a : ℝ) :
    (X * Real.cos a - Z * Real.sin a) ^ 2 + (Y * 0.3) ^ 2
      + (X * Real.sin a + Z * Real.cos a) ^ 2 = X ^ 2 + Z ^ 2 + 0.09 * Y ^ 2 := by
  have h := Real.sin_sq_add_cos_sq a
  linear_combination (X ^ 2 + Z ^ 2) * h

lemma abs_sub_half_le {r : ℝ} (h0 : 0 ≤ r) (h1 : r < 1) : |r - 0.5| ≤ 0.5 :=
  abs_le.mpr ⟨by linarith, by linarith⟩

lemma sq_le_of_abs_le {a b : ℝ} (h : |a| ≤ b) : a ^ 2 ≤ b ^ 2 := by
  have h' := abs_le.mp h
  nlinarith [h'.1, h'.2]

lemma nebula_mag2_le (i count : ℕ) (rand : ℕ → ℝ)
    (hr : ∀ k, 0 ≤ rand k ∧ rand k < 1) :
    (genPos ShapeType.NEBULA i count 10 rand).mag2 ≤ 625 := by
  obtain ⟨h30, h31⟩ := hr 3
  simp only [genPos, setFromSphericalCoords, Vec3.mag2]
  rw [rotY_squash]
  have hm := mag2_setFromSphericalCoords (rand 3 * 10) (Real.arccos (2 * rand 5 - 1))
    (rand 4 * Real.pi * 2)
  simp only [setFromSphericalCoords, Vec3.mag2] at hm
  nlinarith [hm, sq_nonneg (Real.cos (Real.arccos (2 * rand 5 - 1)) * (rand 3 * 10)),
    sq_nonneg (rand 3), sq_nonneg (1 - rand 3)]

lemma heart_mag2_le (i count : ℕ) (radius : ℝ) (rand : ℕ → ℝ)
    (hr : ∀ k, 0 ≤ rand k ∧ rand k < 1) :
    (genPos ShapeType.HEART i count radius rand).mag2 ≤ 113 := by
  obtain ⟨h50, h51⟩ := hr 5
  simp only [genPos, Vec3.mag2, Vec3.smul]
  have hs1 : -1 ≤ Real.sin (rand 3 * Real.pi * 2) := Real.neg_one_le_sin _
  have hs2 : Real.sin (rand 3 * Real.pi * 2) ≤ 1 := Real.sin_le_one _
  have hsq : Real.sin (rand 3 * Real.pi * 2) ^ 2 ≤ 1 := by nlinarith
  have hs6 : (Real.sin (rand 3 * Real.pi * 2) ^ 2) ^ 3 ≤ 1 :=
    pow_le_one₀ (sq_nonneg _) hsq
  have hc1a : -1 ≤ Real.cos (rand 3 * Real.pi * 2) := Real.neg_one_le_cos _
  have hc1b : Real.cos (rand 3 * Real.pi * 2) ≤ 1 := Real.cos_le_one _
  have hc2a : -1 ≤ Real.cos (2 * (rand 3 * Real.pi * 2)) := Real.neg_one_le_cos _
  have hc2b : Real.cos (2 * (rand 3 * Real.pi * 2)) ≤ 1 := Real.cos_le_one _
  have hc3a : -1 ≤ Real.cos (3 * (rand 3 * Real.pi * 2)) := Real.neg_one_le_cos _
  have hc3b : Real.cos (3 * (rand 3 * Real.pi * 2)) ≤ 1 := Real.cos_le_one _
  have hc4a : -1 ≤ Real.cos (4 * (rand 3 * Real.pi * 2)) := Real.neg_one_le_cos _
  have hc4b : Real.cos (4 * (rand 3 * Real.pi * 2)) ≤ 1 := Real.cos_le_one _
  have hy2 : (13 * Real.cos (rand 3 * Real.pi * 2) - 5 * Real.cos (2 * (rand 3 * Real.pi * 2))
      - 2 * Real.cos (3 * (rand 3 * Real.pi * 2)) - Real.cos (4 * (rand 3 * Real.pi * 2))) ^ 2
      ≤ 441 := by nlinarith
  have hd2 : (rand 5 - 0.5) ^ 2 ≤ 0.25 := by nlinarith
  have hprod : (rand 5 - 0.5) ^ 2 * Real.sin (rand 3 * Real.pi * 2) ^ 2 ≤ 0.25 := by
    nlinarith [sq_nonneg (rand 5 - 0.5), sq_nonneg (Real.sin (rand 3 * Real.pi * 2))]
  nlinarith [hs6, hy2, hprod]

lemma flower_mag2_le (i count : ℕ) (rand : ℕ → ℝ)
    (hr : ∀ k, 0 ≤ rand k ∧ rand k < 1) :
    (genPos ShapeType.FLOWER i count 10 rand).mag2 ≤ 625 := by
  obtain ⟨h30, h31⟩ := hr 3
  simp only [genPos, Vec3.mag2]
  set u := (i : ℝ) / count * Real.pi * 2 * 10 with hu
  have habs : (|Real.cos (5 * u) * 10| / 10) ^ 2 = Real.cos (5 * u) ^ 2 := by
    rw [abs_mul, abs_of_nonneg (by norm_num : (0:ℝ) ≤ 10),
      mul_div_cancel_right₀ _ (by norm_num : (10:ℝ) ≠ 0), sq_abs]
  rw [habs]
  have hc5 : Real.cos (5 * u) ^ 2 ≤ 1 := by
    nlinarith [Real.neg_one_le_cos (5 * u), Real.cos_le_one (5 * u)]
  have hc5n : 0 ≤ Real.cos (5 * u) ^ 2 := sq_nonneg _
  have hxz : (Real.cos (5 * u) * 10 * Real.cos u) ^ 2
      + (Real.cos (5 * u) * 10 * Real.sin u) ^ 2 = 100 * Real.cos (5 * u) ^ 2 := by
    linear_combination (100 * Real.cos (5 * u) ^ 2) * Real.sin_sq_add_cos_sq u
  have hmid : (Real.cos (5 * u) ^ 2 * 5 - 2 + (rand 3 - 0.5)) ^ 2 ≤ 12.25 := by
    nlinarith
  linarith [hxz, hmid, hc5]

lemma saturn_mag2_le (i count : ℕ) (rand : ℕ → ℝ)
    (hr : ∀ k, 0 ≤ rand k ∧ rand k < 1) :
    (genPos ShapeType.SATURN i count 10 rand).mag2 ≤ 625 := by
  obtain ⟨h40, h41⟩ := hr 4
  obtain ⟨h50, h51⟩ := hr 5
  simp only [genPos]
  split_ifs with hcond
  · rw [mag2_setFromSphericalCoords]
    norm_num
  · rw [mag2_applyAxisAngleX]
    simp only [Vec3.mag2]
    have hxz : (10 * (1.2 + rand 4 * 0.8) * Real.cos (rand 3 * Real.pi * 2)) ^ 2
        + (10 * (1.2 + rand 4 * 0.8) * Real.sin (rand 3 * Real.pi * 2)) ^ 2
        = (10 * (1.2 + rand 4 * 0.8)) ^ 2 := by
      linear_combination ((10 * (1.2 + rand 4 * 0.8)) ^ 2)
        * Real.sin_sq_add_cos_sq (rand 3 * Real.pi * 2)
    have hd : (10 * (1.2 + rand 4 * 0.8)) ^ 2 ≤ 400 := by nlinarith
    have hy : ((rand 5 - 0.5) * 0.5) ^ 2 ≤ 0.0625 := by nlinarith
    linarith [hxz, hd, hy]

lemma sum3_sq_le (a b c A B C : ℝ) (ha : |a| ≤ A) (hb : |b| ≤ B) (hc : |c| ≤ C)
    (h : A ^ 2 + B ^ 2 + C ^ 2 ≤ 625) : a ^ 2 + b ^ 2 + c ^ 2 ≤ 625 := by
  have h1 := sq_le_of_abs_le ha
  have h2 := sq_le_of_abs_le hb
  have h3 := sq_le_of_abs_le hc
  linarith

set_option maxHeartbeats 1000000 in
lemma cake_mag2_le (i count : ℕ) (rand : ℕ → ℝ)
    (hr : ∀ k, 0 ≤ rand k ∧ rand k < 1) :
    (genPos ShapeType.CAKE i count 10 rand).mag2 ≤ 625 := by
  obtain ⟨h40, h41⟩ := hr 4
  obtain ⟨h50, h51⟩ := hr 5
  obtain ⟨h60, h61⟩ := hr 6
  obtain ⟨h70, h71⟩ := hr 7
  simp only [genPos, Vec3.mag2]
  split_ifs with hc1 hc2 hc3 htop hc55 <;> dsimp only
  · -- candle flames
    refine sum3_sq_le _ _ _ 3.95 5.7 3.95 ?_ ?_ ?_ (by norm_num)
    · rw [abs_le]
      constructor <;>
        linarith [Real.neg_one_le_cos ((⌊rand 4 * 6⌋.toNat : ℝ) / 6 * Real.pi * 2),
          Real.cos_le_one ((⌊rand 4 * 6⌋.toNat : ℝ) / 6 * Real.pi * 2)]
    · rw [abs_le]
      constructor <;> linarith
    · rw [abs_le]
      constructor <;>
        linarith [Real.neg_one_le_sin ((⌊rand 4 * 6⌋.toNat : ℝ) / 6 * Real.pi * 2),
          Real.sin_le_one ((⌊rand 4 * 6⌋.toNat : ℝ) / 6 * Real.pi * 2)]
  · -- candle bodies
    refine sum3_sq_le _ _ _ 3.9 5.5 3.9 ?_ ?_ ?_ (by norm_num)
    · rw [abs_le]
      constructor <;>
        linarith [Real.neg_one_le_cos ((⌊rand 4 * 6⌋.toNat : ℝ) / 6 * Real.pi * 2),
          Real.cos_le_one ((⌊rand 4 * 6⌋.toNat : ℝ) / 6 * Real.pi * 2)]
    · rw [abs_le]
      constructor <;> linarith
    · rw [abs_le]
      constructor <;>
        linarith [Real.neg_one_le_sin ((⌊rand 4 * 6⌋.toNat : ℝ) / 6 * Real.pi * 2),
          Real.sin_le_one ((⌊rand 4 * 6⌋.toNat : ℝ) / 6 * Real.pi * 2)]
  · -- piping on the top tier
    have hs20a : -1 ≤ Real.sin (rand 4 * Real.pi * 2 * 20) := Real.neg_one_le_sin _
    have hs20b : Real.sin (rand 4 * Real.pi * 2 * 20) ≤ 1 := Real.sin_le_one _
    have hca : -1 ≤ Real.cos (rand 4 * Real.pi * 2) := Real.neg_one_le_cos _
    have hcb : Real.cos (rand 4 * Real.pi * 2) ≤ 1 := Real.cos_le_one _
    have hsa : -1 ≤ Real.sin (rand 4 * Real.pi * 2) := Real.neg_one_le_sin _
    have hsb : Real.sin (rand 4 * Real.pi * 2) ≤ 1 := Real.sin_le_one _
    have hR : (0:ℝ) ≤ 10 * 0.65 + 0.5 * Real.sin (rand 4 * Real.pi * 2 * 20) * 0.2 := by
      linarith
    refine sum3_sq_le _ _ _ 10.1 4 10.1 ?_ ?_ ?_ (by norm_num)
    · rw [abs_le]
      constructor <;>
        linarith [mul_nonneg hR (by linarith : (0:ℝ) ≤ 1 + Real.cos (rand 4 * Real.pi * 2)),
          mul_nonneg hR (by linarith : (0:ℝ) ≤ 1 - Real.cos (rand 4 * Real.pi * 2))]
    · rw [abs_le]
      constructor <;> linarith
    · rw [abs_le]
      constructor <;>
        linarith [mul_nonneg hR (by linarith : (0:ℝ) ≤ 1 + Real.sin (rand 4 * Real.pi * 2)),
          mul_nonneg hR (by linarith : (0:ℝ) ≤ 1 - Real.sin (rand 4 * Real.pi * 2))]
  · -- piping on the bottom tier
    have hs20a : -1 ≤ Real.sin (rand 4 * Real.pi * 2 * 20) := Real.neg_one_le_sin _
    have hs20b : Real.sin (rand 4 * Real.pi * 2 * 20) ≤ 1 := Real.sin_le_one _
    have hca : -1 ≤ Real.cos (rand 4 * Real.pi * 2) := Real.neg_one_le_cos _
    have hcb : Real.cos (rand 4 * Real.pi * 2) ≤ 1 := Real.cos_le_one _
    have hsa : -1 ≤ Real.sin (rand 4 * Real.pi * 2) := Real.neg_one_le_sin _
    have hsb : Real.sin (rand 4 * Real.pi * 2) ≤ 1 := Real.sin_le_one _
    have hR : (0:ℝ) ≤ 10 + 0.5 * Real.sin (rand 4 * Real.pi * 2 * 20) * 0.2 := by
      linarith
    refine sum3_sq_le _ _ _ 10.1 4 10.1 ?_ ?_ ?_ (by norm_num)
    · rw [abs_le]
      constructor <;>
        linarith [mul_nonneg hR (by linarith : (0:ℝ) ≤ 1 + Real.cos (rand 4 * Real.pi * 2)),
          mul_nonneg hR (by linarith : (0:ℝ) ≤ 1 - Real.cos (rand 4 * Real.pi * 2))]
    · rw [abs_le]
      constructor <;> linarith
    · rw [abs_le]
      constructor <;>
        linarith [mul_nonneg hR (by linarith : (0:ℝ) ≤ 1 + Real.sin (rand 4 * Real.pi * 2)),
          mul_nonneg hR (by linarith : (0:ℝ) ≤ 1 - Real.sin (rand 4 * Real.pi * 2))]
  · -- top tier body
    have hs0 := Real.sqrt_nonneg (rand 5)
    have hs1 : Real.sqrt (rand 5) ≤ 1 := Real.sqrt_le_one.mpr h51.le
    refine sum3_sq_le _ _ _ 6.5 4 6.5 ?_ ?_ ?_ (by norm_num)
    · rw [abs_le]
      constructor <;>
        linarith [mul_nonneg hs0
            (by linarith [Real.cos_le_one (rand 4 * Real.pi * 2)] :
              (0:ℝ) ≤ 1 - Real.cos (rand 4 * Real.pi * 2)),
          mul_nonneg hs0
            (by linarith [Real.neg_one_le_cos (rand 4 * Real.pi * 2)] :
              (0:ℝ) ≤ 1 + Real.cos (rand 4 * Real.pi * 2))]
    · rw [abs_le]
      constructor <;> linarith
    · rw [abs_le]
      constructor <;>
        linarith [mul_nonneg hs0
            (by linarith [Real.sin_le_one (rand 4 * Real.pi * 2)] :
              (0:ℝ) ≤ 1 - Real.sin (rand 4 * Real.pi * 2)),
          mul_nonneg hs0
            (by linarith [Real.neg_one_le_sin (rand 4 * Real.pi * 2)] :
              (0:ℝ) ≤ 1 + Real.sin (rand 4 * Real.pi * 2))]
  · -- bottom tier body
    have hs0 := Real.sqrt_nonneg (rand 5)
    have hs1 : Real.sqrt (rand 5) ≤ 1 := Real.sqrt_le_one.mpr h51.le
    refine sum3_sq_le _ _ _ 10 5 10 ?_ ?_ ?_ (by norm_num)
    · rw [abs_le]
      constructor <;>
        linarith [mul_nonneg hs0
            (by linarith [Real.cos_le_one (rand 4 * Real.pi * 2)] :
              (0:ℝ) ≤ 1 - Real.cos (rand 4 * Real.pi * 2)),
          mul_nonneg hs0
            (by linarith [Real.neg_one_le_cos (rand 4 * Real.pi * 2)] :
              (0:ℝ) ≤ 1 + Real.cos (rand 4 * Real.pi * 2))]
    · rw [abs_le]
      constructor <;> linarith
    · rw [abs_le]
      constructor <;>
        linarith [mul_nonneg hs0
            (by linarith [Real.sin_le_one (rand 4 * Real.pi * 2)] :
              (0:ℝ) ≤ 1 - Real.sin (rand 4 * Real.pi * 2)),
          mul_nonneg hs0
            (by linarith [Real.neg_one_le_sin (rand 4 * Real.pi * 2)] :
              (0:ℝ) ≤ 1 + Real.sin (rand 4 * Real.pi * 2))]

lemma fireworks_mag2_le (i count : ℕ) (rand : ℕ → ℝ)
    (hr : ∀ k, 0 ≤ rand k ∧ rand k < 1) :
    (genPos ShapeType.FIREWORKS i count 10 rand).mag2 ≤ 625 := by
  obtain ⟨h50, h51⟩ := hr 5
  simp only [genPos]
  rw [mag2_setFromSphericalCoords]
  have hp0 : 0 ≤ rand 5 ^ (0.1 : ℝ) := Real.rpow_nonneg h50 _
  have hp1 : rand 5 ^ (0.1 : ℝ) ≤ 1 := Real.rpow_le_one h50 h51.le (by norm_num)
  nlinarith

lemma spiral_mag2_le (i count : ℕ) (rand : ℕ → ℝ) (hi : i < count)
    (hr : ∀ k, 0 ≤ rand k ∧ rand k < 1) :
    (genPos ShapeType.SPIRAL i count 10 rand).mag2 ≤ 625 := by
  obtain ⟨h30, h31⟩ := hr 3
  obtain ⟨h40, h41⟩ := hr 4
  have hcpos : (0:ℝ) < count := by
    have h : 0 < count := lt_of_le_of_lt (Nat.zero_le i) hi
    exact_mod_cast h
  have ht0 : 0 ≤ (i : ℝ) / count := div_nonneg (Nat.cast_nonneg i) (Nat.cast_nonneg count)
  have ht1 : (i : ℝ) / count < 1 := (div_lt_one hcpos).mpr (by exact_mod_cast hi)
  simp only [genPos, Vec3.mag2]
  have hrt : (i:ℝ)/count * Real.pi * 2 * 4 / (Real.pi * 2 * 4) * 10 * 1.5
      = (i:ℝ)/count * 15 := by
    rw [mul_comm ((i:ℝ)/count * Real.pi * 2) 4]
    field_simp
    ring
  rw [hrt]
  have hss := Real.sin_sq_add_cos_sq ((i:ℝ)/count * Real.pi * 2 * 4)
  have hxz : ((i:ℝ)/count * 15 + (rand 3 - 0.5) * (10 * 0.2)) ^ 2
      = (((i:ℝ)/count * 15 + (rand 3 - 0.5) * (10 * 0.2))
          * Real.cos ((i:ℝ)/count * Real.pi * 2 * 4)) ^ 2
        + (((i:ℝ)/count * 15 + (rand 3 - 0.5) * (10 * 0.2))
          * Real.sin ((i:ℝ)/count * Real.pi * 2 * 4)) ^ 2 := by
    linear_combination (-(((i:ℝ)/count * 15 + (rand 3 - 0.5) * (10 * 0.2)) ^ 2)) * hss
  have hA2 : ((i:ℝ)/count * 15 + (rand 3 - 0.5) * (10 * 0.2)) ^ 2 ≤ 256 := by nlinarith
  have hy2 : ((rand 4 - 0.5) * 10 * 0.1) ^ 2 ≤ 0.25 := by nlinarith
  linarith [hxz, hA2, hy2]

lemma lemniscate_mag2_le (i count : ℕ) (rand : ℕ → ℝ)
    (hr : ∀ k, 0 ≤ rand k ∧ rand k < 1) :
    (genPos ShapeType.LEMNISCATE i count 10 rand).mag2 ≤ 625 := by
  obtain ⟨h30, h31⟩ := hr 3
  simp only [genPos]
  rw [mag2_applyAxisAngleX]
  simp only [Vec3.mag2]
  have hc1 : -1 ≤ Real.cos ((i:ℝ)/count * Real.pi * 2) := Real.neg_one_le_cos _
  have hc2 : Real.cos ((i:ℝ)/count * Real.pi * 2) ≤ 1 := Real.cos_le_one _
  have hs1 : -1 ≤ Real.sin ((i:ℝ)/count * Real.pi * 2) := Real.neg_one_le_sin _
  have hs2 : Real.sin ((i:ℝ)/count * Real.pi * 2) ≤ 1 := Real.sin_le_one _
  set s := Real.sin ((i:ℝ)/count * Real.pi * 2) with hsdef
  set c := Real.cos ((i:ℝ)/count * Real.pi * 2) with hcdef
  have hdv : (1:ℝ) ≤ 1 + s * s := by nlinarith [sq_nonneg s]
  have hdv0 : (0:ℝ) < 1 + s * s := by linarith
  have hc2' : c ^ 2 ≤ 1 := by nlinarith
  have hbx : (10 * 1.2 * c / (1 + s * s)) ^ 2 ≤ 144 := by
    rw [div_pow, div_le_iff₀ (by positivity)]
    nlinarith
  have hby : (10 * 1.2 * c * s / (1 + s * s)) ^ 2 ≤ 144 := by
    rw [div_pow, div_le_iff₀ (by positivity)]
    nlinarith [mul_nonneg (by linarith : (0:ℝ) ≤ 1 - c ^ 2) (sq_nonneg s),
      sq_nonneg s, sq_nonneg (s * s)]
  have hth : ((rand 3 - 0.5) * 2.0) ^ 2 ≤ 1 := by nlinarith
  linarith [hbx, hby, hth]

lemma tetraVertex_abs (k : ℕ) :
    |(tetraVertex k).x| ≤ 1 ∧ |(tetraVertex k).y| ≤ 1 ∧ |(tetraVertex k).z| ≤ 1 := by
  rw [tetraVertex]
  split_ifs <;> norm_num

lemma abs_mul_inv_mag_le (a m : ℝ) (hm : 0 < m) (ha : |a| ≤ m) : |a * (1 / m)| ≤ 1 := by
  rw [abs_mul, abs_of_pos (by positivity : (0:ℝ) < 1 / m)]
  have h := mul_le_mul_of_nonneg_right ha (by positivity : (0:ℝ) ≤ 1 / m)
  rwa [mul_one_div_cancel (ne_of_gt hm)] at h

lemma normalize_coord_abs (v : Vec3) :
    |v.normalize.x| ≤ 1 ∧ |v.normalize.y| ≤ 1 ∧ |v.normalize.z| ≤ 1 := by
  rw [Vec3.normalize]
  by_cases h : v.mag = 0
  · have hm2 : v.mag2 = 0 := by
      have := h
      rw [Vec3.mag] at this
      nlinarith [Real.sq_sqrt (Vec3.mag2_nonneg v), Vec3.mag2_nonneg v]
    rw [Vec3.mag2] at hm2
    have hx : v.x = 0 := by nlinarith [sq_nonneg v.x, sq_nonneg v.y, sq_nonneg v.z]
    have hy : v.y = 0 := by nlinarith [sq_nonneg v.x, sq_nonneg v.y, sq_nonneg v.z]
    have hz : v.z = 0 := by nlinarith [sq_nonneg v.x, sq_nonneg v.y, sq_nonneg v.z]
    rw [if_pos h]
    simp [Vec3.smul, hx, hy, hz]
  · have hpos : 0 < v.mag := lt_of_le_of_ne (Real.sqrt_nonneg _) (Ne.symm h)
    have hx : |v.x| ≤ v.mag := by
      rw [Vec3.mag, ← Real.sqrt_sq_eq_abs]
      apply Real.sqrt_le_sqrt
      rw [Vec3.mag2]
      nlinarith [sq_nonneg v.y, sq_nonneg v.z]
    have hy : |v.y| ≤ v.mag := by
      rw [Vec3.mag, ← Real.sqrt_sq_eq_abs]
      apply Real.sqrt_le_sqrt
      rw [Vec3.mag2]
      nlinarith [sq_nonneg v.x, sq_nonneg v.z]
    have hz : |v.z| ≤ v.mag := by
      rw [Vec3.mag, ← Real.sqrt_sq_eq_abs]
      apply Real.sqrt_le_sqrt
      rw [Vec3.mag2]
      nlinarith [sq_nonneg v.x, sq_nonneg v.y]
    rw [if_neg h]
    exact ⟨abs_mul_inv_mag_le _ _ hpos hx, abs_mul_inv_mag_le _ _ hpos hy,
      abs_mul_inv_mag_le _ _ hpos hz⟩

lemma chaos_step_abs (X V B : ℝ) (hX : |X| ≤ B) (hV : |V| ≤ 1) :
    |(X - V) * 0.5 + V| ≤ B / 2 + 1 / 2 := by
  rw [show (X - V) * 0.5 + V = X * 0.5 + V * 0.5 by ring]
  calc |X * 0.5 + V * 0.5| ≤ |X * 0.5| + |V * 0.5| := abs_add _ _
    _ = |X| * 0.5 + |V| * 0.5 := by
        rw [abs_mul, abs_mul, abs_of_nonneg (by norm_num : (0:ℝ) ≤ 0.5)]
    _ ≤ B / 2 + 1 / 2 := by linarith

lemma kochChaos_coord (rand : ℕ → ℝ) (n : ℕ) :
    |(kochChaos 10 rand n).x| ≤ 10 / 2 ^ n + 1 ∧
    |(kochChaos 10 rand n).y| ≤ 10 / 2 ^ n + 1 ∧
    |(kochChaos 10 rand n).z| ≤ 10 / 2 ^ n + 1 := by
  induction n with
  | zero =>
    obtain ⟨hx, hy, hz⟩ :=
      normalize_coord_abs (⟨rand 3 - 0.5, rand 4 - 0.5, rand 5 - 0.5⟩ : Vec3)
    simp only [kochChaos, Vec3.smul, pow_zero]
    refine ⟨?_, ?_, ?_⟩ <;>
      rw [abs_mul, abs_of_nonneg (by norm_num : (0:ℝ) ≤ 10)] <;> nlinarith [abs_nonneg (rand 3 - 0.5)]
  | succ n ih =>
    obtain ⟨ihx, ihy, ihz⟩ := ih
    obtain ⟨hvx, hvy, hvz⟩ := tetraVertex_abs (Int.toNat ⌊rand (6 + n) * 4⌋)
    simp only [kochChaos, Vec3.smul, Vec3.add, Vec3.sub]
    have harith : (10 / 2 ^ n + 1) / 2 + 1 / 2 = 10 / 2 ^ (n + 1) + (1:ℝ) := by
      rw [pow_succ]
      ring
    refine ⟨?_, ?_, ?_⟩
    · have h := chaos_step_abs _ _ _ ihx hvx
      linarith [h, harith.le]
    · have h := chaos_step_abs _ _ _ ihy hvy
      linarith [h, harith.le]
    · have h := chaos_step_abs _ _ _ ihz hvz
      linarith [h, harith.le]

lemma koch_mag2_le (i count : ℕ) (rand : ℕ → ℝ) :
    (genPos ShapeType.KOCH i count 10 rand).mag2 ≤ 625 := by
  obtain ⟨hx, hy, hz⟩ := kochChaos_coord rand 6
  simp only [genPos, getTetrahedronPoint, Vec3.smul, Vec3.mag2]
  have hb : 10 / 2 ^ 6 + 1 = (1.15625 : ℝ) := by norm_num
  rw [hb] at hx hy hz
  refine sum3_sq_le _ _ _ 9.25 9.25 9.25 ?_ ?_ ?_ (by norm_num) <;>
    rw [abs_mul, abs_of_nonneg (by norm_num : (0:ℝ) ≤ 10 * 0.8)] <;> nlinarith [abs_nonneg (kochChaos 10 rand 6).x]

lemma astroid_mag2_le (i count : ℕ) (rand : ℕ → ℝ) :
    (genPos ShapeType.ASTROID i count 10 rand).mag2 ≤ 625 := by
  simp only [genPos, Vec3.mag2]
  have hcu : Real.cos (rand 3 * Real.pi * 2) ^ 2 ≤ 1 := by
    nlinarith [Real.neg_one_le_cos (rand 3 * Real.pi * 2),
      Real.cos_le_one (rand 3 * Real.pi * 2)]
  have hsu : Real.sin (rand 3 * Real.pi * 2) ^ 2 ≤ 1 := by
    nlinarith [Real.neg_one_le_sin (rand 3 * Real.pi * 2),
      Real.sin_le_one (rand 3 * Real.pi * 2)]
  have hcv : Real.cos ((rand 4 - 0.5) * Real.pi) ^ 2 ≤ 1 := by
    nlinarith [Real.neg_one_le_cos ((rand 4 - 0.5) * Real.pi),
      Real.cos_le_one ((rand 4 - 0.5) * Real.pi)]
  have hsv : Real.sin ((rand 4 - 0.5) * Real.pi) ^ 2 ≤ 1 := by
    nlinarith [Real.neg_one_le_sin ((rand 4 - 0.5) * Real.pi),
      Real.sin_le_one ((rand 4 - 0.5) * Real.pi)]
  have hx6 : (Real.cos (rand 3 * Real.pi * 2) ^ 2) ^ 3
      * (Real.cos ((rand 4 - 0.5) * Real.pi) ^ 2) ^ 3 ≤ 1 := by
    have h1 := pow_le_one₀ (sq_nonneg (Real.cos (rand 3 * Real.pi * 2))) hcu (n := 3)
    have h2 := pow_le_one₀ (sq_nonneg (Real.cos ((rand 4 - 0.5) * Real.pi))) hcv (n := 3)
    nlinarith [pow_nonneg (sq_nonneg (Real.cos (rand 3 * Real.pi * 2))) 3,
      pow_nonneg (sq_nonneg (Real.cos ((rand 4 - 0.5) * Real.pi))) 3]
  have hz6 : (Real.sin (rand 3 * Real.pi * 2) ^ 2) ^ 3
      * (Real.cos ((rand 4 - 0.5) * Real.pi) ^ 2) ^ 3 ≤ 1 := by
    have h1 := pow_le_one₀ (sq_nonneg (Real.sin (rand 3 * Real.pi * 2))) hsu (n := 3)
    have h2 := pow_le_one₀ (sq_nonneg (Real.cos ((rand 4 - 0.5) * Real.pi))) hcv (n := 3)
    nlinarith [pow_nonneg (sq_nonneg (Real.sin (rand 3 * Real.pi * 2))) 3,
      pow_nonneg (sq_nonneg (Real.cos ((rand 4 - 0.5) * Real.pi))) 3]
  have hy6 : (Real.sin ((rand 4 - 0.5) * Real.pi) ^ 2) ^ 3 ≤ 1 :=
    pow_le_one₀ (sq_nonneg _) hsv
  nlinarith [hx6, hz6, hy6]

lemma butterfly_mag2_le (i count : ℕ) (rand : ℕ → ℝ)
    (hr : ∀ k, 0 ≤ rand k ∧ rand k < 1) :
    (genPos ShapeType.BUTTERFLY i count 10 rand).mag2 ≤ 625 := by
  obtain ⟨h30, h31⟩ := hr 3
  simp only [genPos, Vec3.mag2]
  have he1 : Real.exp (Real.cos ((i:ℝ)/count * Real.pi * 2 * 12))
      ≤ 2.7182818286 :=
    (Real.exp_le_exp.mpr (Real.cos_le_one _)).trans Real.exp_one_lt_d9.le
  have he0 : 0 < Real.exp (Real.cos ((i:ℝ)/count * Real.pi * 2 * 12)) := Real.exp_pos _
  have hc4a : -1 ≤ Real.cos (4 * ((i:ℝ)/count * Real.pi * 2 * 12)) := Real.neg_one_le_cos _
  have hc4b : Real.cos (4 * ((i:ℝ)/count * Real.pi * 2 * 12)) ≤ 1 := Real.cos_le_one _
  have hs5 : |Real.sin ((i:ℝ)/count * Real.pi * 2 * 12 / 12) ^ 5| ≤ 1 := by
    rw [abs_pow]
    exact pow_le_one₀ (abs_nonneg _) (Real.abs_sin_le_one _)
  obtain ⟨hs5a, hs5b⟩ := abs_le.mp hs5
  obtain ⟨term, hterm⟩ : ∃ x : ℝ, x = Real.exp (Real.cos ((i:ℝ)/count * Real.pi * 2 * 12))
      - 2 * Real.cos (4 * ((i:ℝ)/count * Real.pi * 2 * 12))
      - Real.sin ((i:ℝ)/count * Real.pi * 2 * 12 / 12) ^ 5 := ⟨_, rfl⟩
  rw [← hterm]
  have hta : -3 ≤ term := by rw [hterm]; linarith
  have htb : term ≤ 5.72 := by rw [hterm]; linarith
  have hterm2 : term ^ 2 ≤ 33 := by
    nlinarith [mul_nonneg (by linarith : (0:ℝ) ≤ term + 3)
      (by linarith : (0:ℝ) ≤ 5.72 - term)]
  have hxy : (10 * 0.3 * term * Real.sin ((i:ℝ)/count * Real.pi * 2 * 12)) ^ 2
      + (10 * 0.3 * term * Real.cos ((i:ℝ)/count * Real.pi * 2 * 12)) ^ 2
      = (10 * 0.3 * term) ^ 2 := by
    linear_combination ((10 * 0.3 * term) ^ 2)
      * Real.sin_sq_add_cos_sq ((i:ℝ)/count * Real.pi * 2 * 12)
  have hr2 : (10 * 0.3 * term) ^ 2 ≤ 297 := by nlinarith
  have hd2 : (rand 3 - 0.5) ^ 2 ≤ 0.25 := by nlinarith
  have hz2 : ((rand 3 - 0.5) * |10 * 0.3 * term| * 0.5) ^ 2
      ≤ 0.25 * ((10 * 0.3 * term) ^ 2 * 0.25) := by
    rw [mul_pow, mul_pow, sq_abs]
    nlinarith [mul_le_mul_of_nonneg_right hd2 (sq_nonneg (10 * 0.3 * term))]
  linarith [hxy, hr2, hz2]

lemma catenoid_mag2_le (i count : ℕ) (rand : ℕ → ℝ) (hi : i < count) :
    (genPos ShapeType.CATENOID i count 10 rand).mag2 ≤ 625 := by
  have hcpos : (0:ℝ) < count := by
    have h : 0 < count := lt_of_le_of_lt (Nat.zero_le i) hi
    exact_mod_cast h
  have ht0 : 0 ≤ (i : ℝ) / count := div_nonneg (Nat.cast_nonneg i) (Nat.cast_nonneg count)
  have ht1 : (i : ℝ) / count < 1 := (div_lt_one hcpos).mpr (by exact_mod_cast hi)
  simp only [genPos, Vec3.mag2]
  have harg : |((i:ℝ)/count - 0.5) * 10 * 1.5 / (10 * 0.3)| ≤ 2.5 :=
    abs_le.mpr ⟨by linarith, by linarith⟩
  have hcosh : Real.cosh (((i:ℝ)/count - 0.5) * 10 * 1.5 / (10 * 0.3))
      ≤ Real.cosh 2.5 := by
    apply Real.cosh_le_cosh.mpr
    rw [abs_of_pos (by norm_num : (0:ℝ) < 2.5)]
    exact harg
  have he1 : Real.exp 1 < 2.7182818286 := Real.exp_one_lt_d9
  have he5 : Real.exp 1 ^ 5 < 148.42 := by
    have h := pow_lt_pow_left₀ he1 (Real.exp_pos 1).le (by norm_num : (5:ℕ) ≠ 0)
    calc Real.exp 1 ^ 5 < 2.7182818286 ^ 5 := h
      _ ≤ 148.42 := by norm_num
  have hexp5 : Real.exp 5 = Real.exp 1 ^ 5 := by
    rw [show (5:ℝ) = ((5:ℕ):ℝ) * 1 by norm_num, Real.exp_nat_mul]
  have hsq : Real.exp 2.5 ^ 2 = Real.exp 5 := by
    rw [show (5:ℝ) = ((2:ℕ):ℝ) * 2.5 by norm_num, Real.exp_nat_mul]
  have hexp25 : Real.exp 2.5 < 12.19 := by
    nlinarith [Real.exp_pos 2.5]
  have hexpneg : Real.exp (-2.5) ≤ 1 := Real.exp_le_one_iff.mpr (by norm_num)
  have hcosh25 : Real.cosh 2.5 < 6.6 := by
    rw [Real.cosh_eq]
    have := Real.exp_pos (-2.5)
    linarith
  have hone := Real.one_le_cosh (((i:ℝ)/count - 0.5) * 10 * 1.5 / (10 * 0.3))
  have hxz : (10 * 0.3 * Real.cosh (((i:ℝ)/count - 0.5) * 10 * 1.5 / (10 * 0.3))
        * Real.cos (rand 3 * Real.pi * 2)) ^ 2
      + (10 * 0.3 * Real.cosh (((i:ℝ)/count - 0.5) * 10 * 1.5 / (10 * 0.3))
        * Real.sin (rand 3 * Real.pi * 2)) ^ 2
      = (10 * 0.3 * Real.cosh (((i:ℝ)/count - 0.5) * 10 * 1.5 / (10 * 0.3))) ^ 2 := by
    linear_combination ((10 * 0.3
      * Real.cosh (((i:ℝ)/count - 0.5) * 10 * 1.5 / (10 * 0.3))) ^ 2)
      * Real.sin_sq_add_cos_sq (rand 3 * Real.pi * 2)
  have hr2 : (10 * 0.3 * Real.cosh (((i:ℝ)/count - 0.5) * 10 * 1.5 / (10 * 0.3))) ^ 2
      ≤ 392.04 := by nlinarith
  have hv2 : (((i:ℝ)/count - 0.5) * 10 * 1.5) ^ 2 ≤ 56.25 := by nlinarith
  linarith [hxz, hr2, hv2]

lemma rose_mag2_le (i count : ℕ) (rand : ℕ → ℝ) :
    (genPos ShapeType.ROSE i count 10 rand).mag2 ≤ 625 := by
  simp only [genPos]
  rw [mag2_setFromSphericalCoords]
  have habs : |Real.sin (6 * (rand 3 * Real.pi * 2)) * Real.sin (6 * (rand 4 * Real.pi))|
      ≤ 1 := by
    rw [abs_mul]
    nlinarith [Real.abs_sin_le_one (6 * (rand 3 * Real.pi * 2)),
      Real.abs_sin_le_one (6 * (rand 4 * Real.pi)),
      abs_nonneg (Real.sin (6 * (rand 3 * Real.pi * 2))),
      abs_nonneg (Real.sin (6 * (rand 4 * Real.pi)))]
  have hnn := abs_nonneg (Real.sin (6 * (rand 3 * Real.pi * 2))
    * Real.sin (6 * (rand 4 * Real.pi)))
  nlinarith

lemma genPos_mag2_le (type : ShapeType) (i count : ℕ) (rand : ℕ → ℝ) (hi : i < count)
    (hr : ∀ k, 0 ≤ rand k ∧ rand k < 1) :
    (genPos type i count 10 rand).mag2 ≤ 625 := by
  cases type with
  | NEBULA => exact nebula_mag2_le i count rand hr
  | HEART => exact le_trans (heart_mag2_le i count 10 rand hr) (by norm_num)
  | FLOWER => exact flower_mag2_le i count rand hr
  | SATURN => exact saturn_mag2_le i count rand hr
  | CAKE => exact cake_mag2_le i count rand hr
  | FIREWORKS => exact fireworks_mag2_le i count rand hr
  | SPIRAL => exact spiral_mag2_le i count rand hi hr
  | LEMNISCATE => exact lemniscate_mag2_le i count rand hr
  | KOCH => exact koch_mag2_le i count rand
  | ASTROID => exact astroid_mag2_le i count rand
  | BUTTERFLY => exact butterfly_mag2_le i count rand hr
  | CATENOID => exact catenoid_mag2_le i count rand hi
  | ROSE => exact rose_mag2_le i count rand

/-- Inverting the axis-angle tilt recovers the pre-tilt point. -/
lemma applyAxisAngleX_neg (a : ℝ) (v : Vec3) :
    applyAxisAngleX (-a) (applyAxisAngleX a v) = v := by
  obtain ⟨x, y, z⟩ := v
  simp only [applyAxisAngleX, Real.cos_neg, Real.sin_neg]
  have h := Real.sin_sq_add_cos_sq a
  rw [Vec3.mk.injEq]
  refine ⟨rfl, ?_, ?_⟩
  · linear_combination y * h
  · linear_combination z * h

/-- The fixed stream of draws exhibiting the C1 counterexample: draw 3
(the heart's angle draw) is `1/4`, i.e. `u = π/2`; all others `1/2`. -/
noncomputable def c1Rand : ℕ → ℝ := fun k => if k = 3 then 1/4 else 1/2

/-- The all-`1/2` draw table used by the C1 witness. -/
noncomputable def c1WitnessRand : ℕ → ℕ → ℝ := fun _ _ => 1/2

/-- The all-zero draw stream used for the C8 counterexample and witness. -/
def c8Rand : ℕ → ℝ := fun _ => 0

/-! ## Claim theorems: shape generator -/

/-- C1 (counterexample): the magnitude bound `2.5·radius` fails at
radius `1`: the Heart shape ignores `radius` entirely, and the draw
stream putting the heart parameter at `u = π/2` produces the point
`(6.4, 1.6, 0)` of magnitude `≈ 6.6 > 2.5`. -/
theorem c1_counterexample :
    (∀ k, 0 ≤ c1Rand k ∧ c1Rand k < 1) ∧
    2.5 * 1 < (genPos ShapeType.HEART 0 1 1 c1Rand).mag := by
  constructor
  · intro k
    rw [c1Rand]
    split_ifs <;> norm_num
  · have h3 : c1Rand 3 = 1/4 := by rw [c1Rand]; norm_num
    have h5 : c1Rand 5 = 1/2 := by rw [c1Rand]; norm_num
    simp only [genPos, Vec3.smul, Vec3.mag, Vec3.mag2]
    rw [h3, h5, show (1/4 : ℝ) * Real.pi * 2 = Real.pi / 2 by ring,
      Real.sin_pi_div_two, Real.cos_pi_div_two,
      show (2:ℝ) * (Real.pi / 2) = Real.pi by ring, Real.cos_pi,
      show (3:ℝ) * (Real.pi / 2) = Real.pi / 2 + Real.pi by ring, Real.cos_add_pi,
      Real.cos_pi_div_two,
      show (4:ℝ) * (Real.pi / 2) = 2 * Real.pi by ring, Real.cos_two_pi]
    rw [show (2.5:ℝ) * 1 = 2.5 by ring]
    apply (Real.lt_sqrt (by norm_num)).mpr
    norm_num

/-- C1 (amended): at the repository's radius `10` (the TS default, used
by both call sites), for every shape, every `count > 0`, and every
draw table with values in `[0,1)`, `generateShapePositions` returns
exactly `count` points, each of Euclidean magnitude at most
`2.5·10 = 25` (coordinates are real numbers in the embedding, hence
finite). -/
theorem c1_count_and_bounded (type : ShapeType) (count : ℕ) (rand : ℕ → ℕ → ℝ)
    (_hcount : 0 < count) (hr : ∀ i k, 0 ≤ rand i k ∧ rand i k < 1) :
    (generateShapePositions type count 10 rand).length = count ∧
    ∀ p ∈ generateShapePositions type count 10 rand, p.mag ≤ 2.5 * 10 := by
  constructor
  · rw [generateShapePositions, List.length_map, List.length_range]
  · intro p hp
    rw [generateShapePositions, List.mem_map] at hp
    obtain ⟨i, hi, hpi⟩ := hp
    rw [List.mem_range] at hi
    rw [← hpi]
    apply Vec3.mag_le _ _ (by norm_num)
    rw [show ((2.5:ℝ) * 10) ^ 2 = 625 by norm_num]
    exact genPos_mag2_le type i count (rand i) hi (hr i)

/-- C1 (witness): the amended claim at the Heart shape with one
particle and the all-`1/2` draw table. -/
theorem c1_witness :
    0 < 1 ∧ (∀ i k, 0 ≤ c1WitnessRand i k ∧ c1WitnessRand i k < 1) ∧
    ((generateShapePositions ShapeType.HEART 1 10 c1WitnessRand).length = 1 ∧
      ∀ p ∈ generateShapePositions ShapeType.HEART 1 10 c1WitnessRand,
        p.mag ≤ 2.5 * 10) := by
  have hr : ∀ i k, 0 ≤ c1WitnessRand i k ∧ c1WitnessRand i k < 1 := fun i k =>
    ⟨by norm_num [c1WitnessRand], by norm_num [c1WitnessRand]⟩
  exact ⟨by norm_num, hr,
    c1_count_and_bounded ShapeType.HEART 1 c1WitnessRand (by norm_num) hr⟩

/-- C8 (counterexample): the ring is not flat — at `radius = 1` with the
all-zero draw stream, the ring particle (index 1 of 2) has pre-tilt
vertical coordinate `-0.25 ≠ 0`, so the point does not lie in the
tilted ring plane. -/
theorem c8_counterexample :
    (∀ k, 0 ≤ c8Rand k ∧ c8Rand k < 1) ∧
    ¬ ((1:ℕ) : ℝ) < ((2:ℕ) : ℝ) * 0.4 ∧
    (applyAxisAngleX (-(Real.pi / 6))
      (genPos ShapeType.SATURN 1 2 1 c8Rand)).y ≠ 0 := by
  refine ⟨fun k => ⟨le_refl 0, by norm_num [c8Rand]⟩, by push_cast; norm_num, ?_⟩
  simp only [genPos]
  rw [if_neg (by push_cast; norm_num)]
  rw [applyAxisAngleX_neg]
  norm_num [c8Rand]

/-- C8 (amended): for the Saturn shape, every particle with
`i < 0.4·count` has magnitude exactly `0.6·radius` (in particular at
most `0.6·radius`), and every particle with `i ≥ 0.4·count` is a point
of a ring tilted by `π/6` about the X axis whose planar distance from
the axis lies in `[1.2, 2.0]·radius` and whose vertical offset in the
ring's own frame is at most `0.25` (the ring has thickness `0.5`, it is
not exactly flat). -/
theorem c8_saturn_structure (i count : ℕ) (radius : ℝ) (rand : ℕ → ℝ)
    (hrad : 0 ≤ radius) (hr : ∀ k, 0 ≤ rand k ∧ rand k < 1) :
    (((i:ℝ) < count * 0.4 →
      (genPos ShapeType.SATURN i count radius rand).mag ≤ 0.6 * radius) ∧
    (¬ (i:ℝ) < count * 0.4 →
      ∃ d a yj, 1.2 * radius ≤ d ∧ d ≤ 2 * radius ∧ |yj| ≤ 0.25 ∧
        genPos ShapeType.SATURN i count radius rand
          = applyAxisAngleX (Real.pi / 6) ⟨d * Real.cos a, yj, d * Real.sin a⟩)) := by
  obtain ⟨h40, h41⟩ := hr 4
  obtain ⟨h50, h51⟩ := hr 5
  constructor
  · intro h
    simp only [genPos]
    rw [if_pos h, Vec3.mag, mag2_setFromSphericalCoords,
      Real.sqrt_sq (by positivity)]
    linarith
  · intro h
    refine ⟨radius * (1.2 + rand 4 * 0.8), rand 3 * Real.pi * 2,
      (rand 5 - 0.5) * 0.5, ?_, ?_, ?_, ?_⟩
    · nlinarith [mul_nonneg hrad h40]
    · nlinarith [mul_nonneg hrad (by linarith : (0:ℝ) ≤ 0.8 - 0.8 * rand 4)]
    · rw [abs_le]
      constructor <;> nlinarith
    · simp only [genPos]
      rw [if_neg h]

/-- C8 (witness): the amended claim instantiated at `count = 2`,
`radius = 1`, with the all-zero draw stream; index 0 lands on the
sphere, index 1 on the ring. -/
theorem c8_witness :
    ((0:ℝ) ≤ 1 ∧ (∀ k, 0 ≤ c8Rand k ∧ c8Rand k < 1)) ∧
    ((((1:ℕ):ℝ) < (2:ℕ) * 0.4 →
      (genPos ShapeType.SATURN 1 2 1 c8Rand).mag ≤ 0.6 * 1) ∧
    (¬ ((1:ℕ):ℝ) < (2:ℕ) * 0.4 →
      ∃ d a yj, 1.2 * 1 ≤ d ∧ d ≤ 2 * 1 ∧ |yj| ≤ 0.25 ∧
        genPos ShapeType.SATURN 1 2 1 c8Rand
          = applyAxisAngleX (Real.pi / 6) ⟨d * Real.cos a, yj, d * Real.sin a⟩)) := by
  have hr : ∀ k, 0 ≤ c8Rand k ∧ c8Rand k < 1 := fun k =>
    ⟨le_refl 0, by norm_num [c8Rand]⟩
  exact ⟨⟨by norm_num, hr⟩, c8_saturn_structure 1 2 1 c8Rand (by norm_num) hr⟩

/-- C9: the Heart generator never reads the `radius` parameter (its
curve uses fixed coefficients scaled by `0.4`), so its output is
identical for any two radii given the same draw table. -/
theorem c9_heart_radius_independent (count : ℕ) (r1 r2 : ℝ) (rand : ℕ → ℕ → ℝ) :
    generateShapePositions ShapeType.HEART count r1 rand
      = generateShapePositions ShapeType.HEART count r2 rand := by
  simp only [generateShapePositions]
  congr 1

end Waves
